import Mathlib

/-!
Verification of the petelka-api layered CRUD service (Go) against its
natural-language specification, via a shallow embedding in Lean 4.

The embedding translates, from the repository sources:
  * the data model (`internal/models/models.go`, with the catalog-item fields
    reconstructed from their uses in `internal/repository/product.go` and
    `internal/service/*.go`, since the checked-in `models.go` predates them);
  * the cache-aside repositories (`internal/repository/product.go`,
    `internal/repository/user.go`, and the later petelka-api revision of the
    user repository for `GetUserPassword`);
  * the business-rule services (`internal/service/user.go`,
    `internal/service/category.go` for `ProductService.validateProduct`);
  * the HTTP handlers for registration, product create/update and user update
    (`internal/handler/auth.go`, `internal/handler/product.go`,
    `internal/handler/user.go`);
  * the middleware pipeline (`internal/handler/middleware.go` and the
    `JWTMiddleware` variant in `internal/handler/auth.go`), wired as in
    `cmd/app/main.go` (admin routes: `AuthMiddleware` then `AdminMiddleware`).

External collaborators are modelled explicitly:
  * PostgreSQL tables become association lists keyed by integer id; a
    rows-affected count of a parameterized statement is the number of rows
    matching its WHERE clause;
  * Redis becomes an association list from string keys to entries carrying a
    TTL and bytes that either deserialize cleanly to a value or are garbage;
    a best-effort SET that may fail is modelled by a `setOk : Bool` parameter;
  * bcrypt is modelled as a deterministic one-way tagging function (the code
    under verification only relies on hash-vs-plaintext distinctness and on
    compare-against-generate agreement, not on salting randomness);
  * JWT compact serializations are an environment mapping token strings to
    structural tokens carrying the facts the `jwt` library checks during
    `ParseWithClaims`: HMAC-family algorithm, signature validity under the
    configured key, and expiry.

Timestamps are carried as integers and never consulted by the verified code
paths; monetary values are carried as integers since no verified path depends
on floating-point behaviour.
-/

set_option linter.unusedVariables false

deriving instance DecidableEq for Except

namespace PetelkaApi

/-! ## Data model -/

/-- Model of `models.User` (internal/models/models.go lines 6-13).  The JSON tag on
`Password` is `password,omitempty`: the field is serialized whenever it is
non-empty.  The `oauth_id` column mentioned by the older repository SQL has no
field in this model declaration and no claim concerns it, so it is omitted. -/
structure User where
  id : Int
  email : String
  name : String
  password : String
  createdAt : Int
  updatedAt : Int
deriving DecidableEq, Repr

/-- Model of `models.Product` as used by `internal/repository/product.go` and
`ProductService.validateProduct`: the twelve columns of the products table
plus the generated id.  The struct declaration itself is absent from the
checked-in `models.go` (which predates the catalog-item fields); its field
list is reconstructed from every use in the repository SQL and the service
validation. -/
structure Product where
  id : Int
  name : String
  description : String
  price : Int
  categoryID : Int
  image : String
  type : String
  composition : String
  countryOfOrigin : String
  lengthIn100g : Int
  size : String
  garmentLength : String
  color : String
deriving DecidableEq, Repr

/-! ## External collaborator models: SQL table, Redis cache, bcrypt -/

/-- sql.ErrNoRows: the only database error condition the verified code paths
distinguish. -/
inductive RepoError
  | noRows
deriving DecidableEq, Repr

/-- A relational table keyed by the auto-generated integer id. -/
abbrev Table (α : Type) := List (Int × α)

/-- SELECT ... WHERE id = $1 (primary-key lookup). -/
def rowLookup {α : Type} (t : Table α) (id : Int) : Option α :=
  (t.find? (fun r => r.1 == id)).map (·.2)

/-- Number of rows matched by a WHERE id = $n clause: the rows-affected count
of an UPDATE/DELETE with that clause. -/
def rowsMatching {α : Type} (t : Table α) (id : Int) : Nat :=
  (t.filter (fun r => r.1 == id)).length

/-- DELETE FROM ... WHERE id = $1. -/
def rowDelete {α : Type} (t : Table α) (id : Int) : Table α :=
  t.filter (fun r => !(r.1 == id))

/-- Cached bytes under a Redis key: either bytes that `json.Unmarshal`
decodes cleanly into a value, or bytes that fail to decode. -/
inductive CacheBytes (α : Type)
  | wellFormed (v : α)
  | garbage
deriving DecidableEq, Repr

/-- A Redis value together with the TTL (in minutes) it was SET with. -/
structure CacheEntry (α : Type) where
  bytes : CacheBytes α
  ttlMinutes : Nat
deriving DecidableEq, Repr

abbrev Cache (α : Type) := List (String × CacheEntry α)

/-- Redis GET: `none` is a miss. -/
def redisGet {α : Type} (c : Cache α) (k : String) : Option (CacheBytes α) :=
  (c.find? (fun e => e.1 == k)).map (fun e => e.2.bytes)

/-- Redis SET with TTL (replaces any previous entry under the key). -/
def redisSet {α : Type} (c : Cache α) (k : String) (b : CacheBytes α)
    (ttl : Nat) : Cache α :=
  (k, ⟨b, ttl⟩) :: c.filter (fun e => !(e.1 == k))

/-- Redis DEL. -/
def redisDel {α : Type} (c : Cache α) (k : String) : Cache α :=
  c.filter (fun e => !(e.1 == k))

/-- Deterministic model of `bcrypt.GenerateFromPassword`: a one-way tagging
of the input.  The verified code relies only on the hash being distinct from
the plaintext and on `bcryptCompare` agreeing with `bcryptGenerate`. -/
def bcryptGenerate (pw : String) : String := "$2a$10$" ++ pw

/-- Model of `bcrypt.CompareHashAndPassword`: succeeds exactly when the hash
is the hash of the plaintext. -/
def bcryptCompare (hash pw : String) : Bool := hash == bcryptGenerate pw

/-! ## Product repository (internal/repository/product.go) -/

structure ProductRepoState where
  db : Table Product
  nextId : Int
  cache : Cache Product
deriving DecidableEq, Repr

/-- Cache key `fmt.Sprintf("product:%d", id)`. -/
def productCacheKey (id : Int) : String := "product:" ++ toString id

/-- Translation of `ProductRepository.GetProduct` (product.go lines 50-93): try the cache;
on a hit that unmarshals cleanly return it; otherwise query the table by
primary key, fail with `sql.ErrNoRows` when absent, else SET the row into the
cache with a 10-minute TTL (best effort: `setOk` says whether the SET took
effect; its error is ignored either way) and return it. -/
def getProduct (s : ProductRepoState) (setOk : Bool) (id : Int) :
    Except RepoError Product × ProductRepoState :=
  let cacheKey := productCacheKey id
  match redisGet s.cache cacheKey with
  | some (.wellFormed p) => (.ok p, s)
  | _ =>
    match rowLookup s.db id with
    | none => (.error .noRows, s)
    | some p =>
      let cache' := if setOk then redisSet s.cache cacheKey (.wellFormed p) 10
                    else s.cache
      (.ok p, { s with cache := cache' })

/-- Translation of `ProductRepository.CreateProduct` (product.go lines 26-47): INSERT
RETURNING id; the generated id is written back onto the entity. -/
def createProduct (s : ProductRepoState) (p : Product) :
    Product × ProductRepoState :=
  let p' := { p with id := s.nextId }
  (p', { s with db := s.db ++ [(s.nextId, p')], nextId := s.nextId + 1 })

/-- Translation of `ProductRepository.UpdateProduct` (product.go lines 174-206): UPDATE of
all twelve columns WHERE id; zero rows affected yields `sql.ErrNoRows`; on
success the cache entry for the id is deleted. -/
def updateProduct (s : ProductRepoState) (p : Product) :
    Except RepoError Unit × ProductRepoState :=
  let rowsAffected := rowsMatching s.db p.id
  let db' := s.db.map (fun r => if r.1 == p.id then (r.1, { p with id := r.1 }) else r)
  if rowsAffected == 0 then (.error .noRows, { s with db := db' })
  else (.ok (), { s with db := db', cache := redisDel s.cache (productCacheKey p.id) })

/-- Translation of `ProductRepository.DeleteProduct` (product.go lines 209-225): DELETE
WHERE id; zero rows affected yields `sql.ErrNoRows`; on success the cache
entry is deleted. -/
def deleteProduct (s : ProductRepoState) (id : Int) :
    Except RepoError Unit × ProductRepoState :=
  let rowsAffected := rowsMatching s.db id
  let db' := rowDelete s.db id
  if rowsAffected == 0 then (.error .noRows, { s with db := db' })
  else (.ok (), { s with db := db', cache := redisDel s.cache (productCacheKey id) })

/-! ## User repository (internal/repository/user.go) -/

structure UserRepoState where
  db : Table User
  nextId : Int
  cache : Cache User
deriving DecidableEq, Repr

/-- Cache key `"user:" + strconv.Itoa(id)`. -/
def userCacheKey (id : Int) : String := "user:" ++ toString id

/-- Translation of `UserRepository.CreateUser` (user.go lines 24-36): when the incoming
password is non-empty it is bcrypt-hashed (again) before the INSERT; the
generated id is written back onto the entity. -/
def createUser (s : UserRepoState) (u : User) : User × UserRepoState :=
  let u1 := if u.password ≠ "" then { u with password := bcryptGenerate u.password } else u
  let u2 := { u1 with id := s.nextId }
  (u2, { s with db := s.db ++ [(s.nextId, u2)], nextId := s.nextId + 1 })

/-- Translation of `UserRepository.GetUser` (user.go lines 38-58): same cache-aside shape as
`getProduct`, under the key `"user:id"` with a 10-minute best-effort SET. -/
def getUser (s : UserRepoState) (setOk : Bool) (id : Int) :
    Except RepoError User × UserRepoState :=
  let cacheKey := userCacheKey id
  match redisGet s.cache cacheKey with
  | some (.wellFormed u) => (.ok u, s)
  | _ =>
    match rowLookup s.db id with
    | none => (.error .noRows, s)
    | some u =>
      let cache' := if setOk then redisSet s.cache cacheKey (.wellFormed u) 10
                    else s.cache
      (.ok u, { s with cache := cache' })

/-- The column list of `UPDATE users SET email = $1, name = $2, password = $4
WHERE id`: the statement rewrites exactly these columns and leaves the
creation timestamp (and every column outside its SET list) untouched. -/
def applyUserUpdate (row u : User) : User :=
  { row with email := u.email, name := u.name, password := u.password }

/-- Translation of `UserRepository.UpdateUser` (user.go lines 80-92): hashes a non-empty
password, executes the UPDATE, and returns its error directly — it never
inspects the rows-affected count (so a vanished id still yields success) and
never touches the cache. -/
def updateUser (s : UserRepoState) (u : User) :
    Except RepoError Unit × UserRepoState :=
  let u1 := if u.password ≠ "" then { u with password := bcryptGenerate u.password } else u
  let db' := s.db.map (fun r => if r.1 == u1.id then (r.1, applyUserUpdate r.2 u1) else r)
  (.ok (), { s with db := db' })

/-- Translation of `UserRepository.DeleteUser` (user.go lines 94-98): executes the DELETE
and returns its error directly — no rows-affected check, no cache delete. -/
def deleteUser (s : UserRepoState) (id : Int) :
    Except RepoError Unit × UserRepoState :=
  (.ok (), { s with db := rowDelete s.db id })

/-- Translation of `UserRepository.GetUserPassword` (petelka-api revision of the user
repository): SELECT password FROM users WHERE id, no cache. -/
def getUserPassword (s : UserRepoState) (id : Int) : Except RepoError String :=
  match rowLookup s.db id with
  | none => .error .noRows
  | some u => .ok u.password

/-! ## Service layer errors

`fmt.Errorf("...: %w", err)` wraps a cause that `errors.Is` can still inspect;
`fmt.Errorf("...")` produces a plain message. -/

inductive SvcError
  | wrapped (context : String) (cause : RepoError)
  | message (msg : String)
deriving DecidableEq, Repr

/-- Test for `errors.Is(err, sql.ErrNoRows)` through the service wrapping. -/
def SvcError.isNoRows : SvcError → Bool
  | .wrapped _ .noRows => true
  | _ => false

/-! ## User service (internal/service/user.go) -/

/-- Translation of `UserService.CreateUser` (user.go lines 26-50): empty password is
rejected; otherwise the password is bcrypt-hashed here (business layer) and
the repository is called — which, in the cited repository revision, hashes
the already-hashed value a second time.  The returned `User` models the
in-place mutations the Go code performs on the caller struct (hash written
into `Password`, generated id written into `ID`). -/
def serviceCreateUser (s : UserRepoState) (u : User) :
    Except SvcError User × UserRepoState :=
  if u.password = "" then (.error (.message "password is required"), s)
  else
    let u1 := { u with password := bcryptGenerate u.password }
    let (u2, s') := createUser s u1
    (.ok u2, s')

/-- Translation of `UserService.UpdateUser` (user.go lines 102-128): a non-empty password is
hashed, then the repository update runs; `sql.ErrNoRows` would be wrapped
with a not-found message.  The returned `User` is the struct after the
service-layer mutation (the value the handler later encodes). -/
def serviceUpdateUser (s : UserRepoState) (u : User) :
    Except SvcError User × UserRepoState :=
  let u1 := if u.password ≠ "" then { u with password := bcryptGenerate u.password } else u
  match updateUser s u1 with
  | (.ok _, s') => (.ok u1, s')
  | (.error e, s') => (.error (.wrapped "failed to update user" e), s')

/-- Translation of `UserService.DeleteUser` (user.go lines 131-146). -/
def serviceDeleteUser (s : UserRepoState) (id : Int) :
    Except SvcError Unit × UserRepoState :=
  match deleteUser s id with
  | (.ok _, s') => (.ok (), s')
  | (.error e, s') => (.error (.wrapped "failed to delete user" e), s')

/-- Translation of `UserService.VerifyPassword` (user.go lines 149-170): fetches the stored
credential via `GetUserPassword` and bcrypt-compares it with the presented
plaintext. -/
def serviceVerifyPassword (s : UserRepoState) (id : Int) (pw : String) :
    Except SvcError Unit :=
  match getUserPassword s id with
  | .error .noRows => .error (.message "user not found")
  | .ok h =>
    if bcryptCompare h pw then .ok ()
    else .error (.message "invalid password")

/-! ## Product service (internal/service/category.go, ProductService part) -/

/-- Translation of `ProductService.validateProduct` (lines 104-157): the sequential
early-return checks, translated verbatim.  The two single-quoted variant
names inside the Go type message are rendered without their quotes. -/
def validateProduct (p : Product) : Except String Unit :=
  if p.name = "" then .error "name is required"
  else if p.price ≤ 0 then .error "price must be greater than 0"
  else if p.image = "" then .error "image is required"
  else if p.categoryID ≤ 0 then .error "category_id must be greater than 0"
  else if p.type ≠ "yarn" ∧ p.type ≠ "garment" then
    .error "type must be either yarn or garment"
  else if p.type = "yarn" then
    if p.composition = "" then .error "composition is required for yarn products"
    else if p.countryOfOrigin = "" then .error "country_of_origin is required for yarn products"
    else if p.lengthIn100g ≤ 0 then .error "length_in_100g must be greater than 0 for yarn products"
    else if p.color = "" then .error "color is required for yarn products"
    else .ok ()
  else if p.type = "garment" then
    if p.composition = "" then .error "composition is required for garment products"
    else if p.size = "" then .error "size is required for garment products"
    else if p.garmentLength = "" then .error "garment_length is required for garment products"
    else if p.color = "" then .error "color is required for garment products"
    else .ok ()
  else .ok ()

/-- Translation of `ProductService.CreateProduct`: validation runs before any data access;
a violation is wrapped as `validation failed: <reason>` and the repository is
never called. -/
def serviceCreateProduct (s : ProductRepoState) (p : Product) :
    Except SvcError Product × ProductRepoState :=
  match validateProduct p with
  | .error m => (.error (.message ("validation failed: " ++ m)), s)
  | .ok _ =>
    let (p', s') := createProduct s p
    (.ok p', s')

/-- Translation of `ProductService.UpdateProduct`: validation first, then the repository
update; `sql.ErrNoRows` is wrapped with a not-found message. -/
def serviceUpdateProduct (s : ProductRepoState) (p : Product) :
    Except SvcError Unit × ProductRepoState :=
  match validateProduct p with
  | .error m => (.error (.message ("validation failed: " ++ m)), s)
  | .ok _ =>
    match updateProduct s p with
    | (.ok _, s') => (.ok (), s')
    | (.error e, s') => (.error (.wrapped "product not found" e), s')

/-- Translation of `ProductService.DeleteProduct`. -/
def serviceDeleteProduct (s : ProductRepoState) (id : Int) :
    Except SvcError Unit × ProductRepoState :=
  match deleteProduct s id with
  | (.ok _, s') => (.ok (), s')
  | (.error e, s') => (.error (.wrapped "product not found" e), s')

/-! ## Transport adaptation: JSON bodies, requests, responses -/

/-- A JSON scalar as produced by the encoders of the handlers under
verification. -/
inductive Jval
  | jstr (s : String)
  | jnum (n : Int)
deriving DecidableEq, Repr

abbrev Jobj := List (String × Jval)

def jobjField (o : Jobj) (k : String) : Option Jval :=
  (o.find? (fun e => e.1 == k)).map (·.2)

inductive Body
  | text (s : String)
  | jsonObj (o : Jobj)
deriving DecidableEq, Repr

structure HttpResponse where
  status : Nat
  body : Body
deriving DecidableEq, Repr

/-- Encoding by `json.NewEncoder(w).Encode(user)` under the tags of `models.User`:
`password,omitempty` serializes the field exactly when it is non-empty. -/
def encodeUser (u : User) : Jobj :=
  [("id", .jnum u.id), ("email", .jstr u.email), ("name", .jstr u.name)]
  ++ (if u.password = "" then [] else [("password", .jstr u.password)])
  ++ [("created_at", .jnum u.createdAt), ("updated_at", .jnum u.updatedAt)]

def encodeProduct (p : Product) : Jobj :=
  [("id", .jnum p.id), ("name", .jstr p.name), ("description", .jstr p.description),
   ("price", .jnum p.price), ("category_id", .jnum p.categoryID),
   ("image", .jstr p.image), ("type", .jstr p.type),
   ("composition", .jstr p.composition), ("country_of_origin", .jstr p.countryOfOrigin),
   ("length_in_100g", .jnum p.lengthIn100g), ("size", .jstr p.size),
   ("garment_length", .jstr p.garmentLength), ("color", .jstr p.color)]

/-- The fields present in a JSON request body for a user.  `json.Decode`
into a zero-valued `models.User` leaves absent fields at their zero value. -/
structure UserPatch where
  id : Option Int := none
  email : Option String := none
  name : Option String := none
  password : Option String := none
deriving DecidableEq, Repr

/-- Decoding by `json.NewDecoder(r.Body).Decode(&user)` on a fresh `models.User`. -/
def decodeUser (p : UserPatch) : User :=
  { id := p.id.getD 0, email := p.email.getD "", name := p.name.getD "",
    password := p.password.getD "", createdAt := 0, updatedAt := 0 }

/-- The fields present in a JSON request body for a product. -/
structure ProductPatch where
  id : Option Int := none
  name : Option String := none
  description : Option String := none
  price : Option Int := none
  categoryID : Option Int := none
  image : Option String := none
  type : Option String := none
  composition : Option String := none
  countryOfOrigin : Option String := none
  lengthIn100g : Option Int := none
  size : Option String := none
  garmentLength : Option String := none
  color : Option String := none
deriving DecidableEq, Repr

/-- Decoding by `json.NewDecoder(r.Body).Decode(&product)` on a fresh `models.Product`. -/
def decodeProduct (p : ProductPatch) : Product :=
  { id := p.id.getD 0, name := p.name.getD "", description := p.description.getD "",
    price := p.price.getD 0, categoryID := p.categoryID.getD 0,
    image := p.image.getD "", type := p.type.getD "",
    composition := p.composition.getD "", countryOfOrigin := p.countryOfOrigin.getD "",
    lengthIn100g := p.lengthIn100g.getD 0, size := p.size.getD "",
    garmentLength := p.garmentLength.getD "", color := p.color.getD "" }

/-! ## Handlers under verification -/

/-- Translation of `AuthHandler.Register` (internal/handler/auth.go lines 50-72): decode the
body (malformed JSON, modelled as `none`, yields 400), call
`UserService.CreateUser`, and on success answer 201 with the JSON encoding of
the (mutated) user struct. -/
def registerHandler (s : UserRepoState) (body : Option UserPatch) :
    HttpResponse × UserRepoState :=
  match body with
  | none => ({ status := 400, body := .text "Invalid request body" }, s)
  | some patch =>
    let u := decodeUser patch
    match serviceCreateUser s u with
    | (.error _, s') => ({ status := 500, body := .text "Failed to register user" }, s')
    | (.ok u', s') => ({ status := 201, body := .jsonObj (encodeUser u') }, s')

/-- Translation of `UserHandler.UpdateUser` (internal/handler/user.go): decode the body,
overwrite the id from the path, call the service; `sql.ErrNoRows` maps to
404, other errors to 500, success to 200 with the encoded struct. -/
def updateUserHandler (s : UserRepoState) (id : Int) (body : Option UserPatch) :
    HttpResponse × UserRepoState :=
  match body with
  | none => ({ status := 400, body := .text "Invalid request body" }, s)
  | some patch =>
    let u := { decodeUser patch with id := id }
    match serviceUpdateUser s u with
    | (.error e, s') =>
      if e.isNoRows then ({ status := 404, body := .text "User not found" }, s')
      else ({ status := 500, body := .text "internal error" }, s')
    | (.ok u', s') => ({ status := 200, body := .jsonObj (encodeUser u') }, s')

/-- Translation of `ProductHandler.CreateProduct` (internal/handler/product.go lines 19-33,
the revision the claims cite): decode the body (malformed JSON yields 400)
and call the service; ANY service error — validation failures included — is
answered with status 500 and the fixed text `Failed to create product`. -/
def createProductHandler (s : ProductRepoState) (body : Option ProductPatch) :
    HttpResponse × ProductRepoState :=
  match body with
  | none => ({ status := 400, body := .text "Invalid request body" }, s)
  | some patch =>
    let p := decodeProduct patch
    match serviceCreateProduct s p with
    | (.error _, s') => ({ status := 500, body := .text "Failed to create product" }, s')
    | (.ok p', s') => ({ status := 201, body := .jsonObj (encodeProduct p') }, s')

/-- Translation of `ProductHandler.UpdateProduct` (internal/handler/product.go lines 86-107
of the cited revision): decode, overwrite the id from the path, call the
service; any service error is answered 500. -/
def updateProductHandler (s : ProductRepoState) (id : Int)
    (body : Option ProductPatch) : HttpResponse × ProductRepoState :=
  match body with
  | none => ({ status := 400, body := .text "Invalid request body" }, s)
  | some patch =>
    let p := { decodeProduct patch with id := id }
    match serviceUpdateProduct s p with
    | (.error _, s') => ({ status := 500, body := .text "Failed to update product" }, s')
    | (.ok _, s') => ({ status := 200, body := .jsonObj (encodeProduct p) }, s')

/-! ## Token validation and the middleware pipeline
(internal/handler/middleware.go; internal/handler/auth.go JWTMiddleware) -/

/-- The claims carried by a JWT (`Claims` in middleware.go: user id, email,
role, plus the registered issuer claim). -/
structure TokenClaims where
  userID : Int
  email : String
  role : String
  issuer : String
deriving DecidableEq, Repr

/-- A structural token: the facts `jwt.ParseWithClaims` establishes about a
compact serialization.  `isHMAC` is the `token.Method.(*jwt.SigningMethodHMAC)`
family check from the keyfunc; `sigValid` is signature validity under the
configured `jwtKey`; `expired` says the registered expiry lies in the past at
validation time. -/
structure Token where
  isHMAC : Bool
  sigValid : Bool
  expired : Bool
  claims : TokenClaims
deriving DecidableEq, Repr

/-- Model of `jwt.ParseWithClaims` with the keyfunc of the source: reject non-HMAC signing
methods, verify the signature, and validate the registered expiry claim; the
issuer is NOT validated here. -/
def parseWithClaims (t : Token) : Option TokenClaims :=
  if t.isHMAC && t.sigValid && !t.expired then some t.claims else none

/-- The token environment: which compact serializations parse to which
structural tokens (`none` for strings the library cannot parse at all). -/
abbrev TokenEnv := List (String × Token)

def tokenLookup (env : TokenEnv) (ts : String) : Option Token :=
  (env.find? (fun e => e.1 == ts)).map (·.2)

/-- An inbound HTTP request as the middleware sees it.  `authHeader = ""`
models an absent Authorization header (Go `Header.Get` returns `""`). -/
structure Request where
  method : String
  authHeader : String
deriving DecidableEq, Repr

/-- Request-scoped context values (`requestID`, `UserIDKey`, `UserRoleKey`). -/
structure Ctx where
  requestID : Option String := none
  userID : Option Int := none
  userRole : Option String := none
deriving DecidableEq, Repr

/-- What a middleware stage does with a request: either it writes a response
itself (the route handler is never invoked) or it invokes the next handler
with the context it built. -/
inductive MwResult
  | response (status : Nat) (body : String)
  | handler (ctx : Ctx)
deriving DecidableEq, Repr

/-- Model of `strings.Split(s, " ")` on the character list: splits at every single
separator, keeping empty words (structurally recursive so that concrete
instances compute). -/
def splitOnChar (sep : Char) : List Char → List (List Char)
  | [] => [[]]
  | c :: rest =>
    match splitOnChar sep rest with
    | [] => [[]]
    | w :: ws => if c = sep then [] :: w :: ws else (c :: w) :: ws

/-- Model of `strings.Split(h, " ")`. -/
def headerParts (h : String) : List String :=
  (splitOnChar ' ' h.toList).map (fun w => String.mk w)

/-- Translation of `AuthMiddleware` (middleware.go lines 34-84): assigns a request id into
the context first; OPTIONS short-circuits with 200; a missing header or a
header not of the two-word `Bearer <token>` shape yields 401; the token is
then parsed with the HMAC-family keyfunc and, on any parse/validity failure,
the request is answered 401 `Invalid token` — the issuer is never examined;
on success the user id and role of the verified claims are injected into the
context and the next handler runs.  `rid` models the freshly generated
`uuid.New().String()`. -/
def authMiddleware (env : TokenEnv) (rid : String) (req : Request) : MwResult :=
  let ctx : Ctx := { requestID := some rid }
  if req.method = "OPTIONS" then .response 200 ""
  else if req.authHeader = "" then .response 401 "Authorization header is required"
  else
    let parts := headerParts req.authHeader
    if parts.length ≠ 2 ∨ parts.head? ≠ some "Bearer" then
      .response 401 "Invalid Authorization header format"
    else
      match tokenLookup env (parts.getD 1 "") with
      | none => .response 401 "Invalid token"
      | some t =>
        match parseWithClaims t with
        | none => .response 401 "Invalid token"
        | some c =>
          .handler { ctx with userID := some c.userID, userRole := some c.role }

/-- Translation of `AdminMiddleware` (middleware.go lines 87-100): begins with the UNCHECKED
type assertion `r.Context().Value("requestID").(string)` — `none` models the
panic when the value is absent; then reads the role from the context and
answers 403 unless it is `admin`; otherwise the next handler runs with the
same context. -/
def adminMiddleware (ctx : Ctx) : Option (Sum (Nat × String) Ctx) :=
  match ctx.requestID with
  | none => none
  | some _ =>
    match ctx.userRole with
    | some role => if role = "admin" then some (.inr ctx) else some (.inl (403, "Forbidden"))
    | none => some (.inl (403, "Forbidden"))

/-- The admin-route pipeline as wired in `cmd/app/main.go`:
`AuthMiddleware` then `AdminMiddleware` then the route handler.  `none`
models a panic inside the chain. -/
def adminChain (env : TokenEnv) (rid : String) (req : Request) :
    Option MwResult :=
  match authMiddleware env rid req with
  | .response st b => some (.response st b)
  | .handler ctx =>
    match adminMiddleware ctx with
    | none => none
    | some (.inl (st, b)) => some (.response st b)
    | some (.inr ctx') => some (.handler ctx')

/-- Translation of `AuthHandler.JWTMiddleware` (auth.go lines 141-204): same header and
token checks as `authMiddleware`, but AFTER a successful parse it also
requires the issuer claim to equal `online-store`; only the user id is
injected into the context.  (The CORS headers it sets are response metadata
with no bearing on the verified control flow.) -/
def jwtMiddleware (env : TokenEnv) (rid : String) (req : Request) : MwResult :=
  let ctx : Ctx := { requestID := some rid }
  if req.method = "OPTIONS" then .response 200 ""
  else if req.authHeader = "" then .response 401 "Authorization header is required"
  else
    let parts := headerParts req.authHeader
    if parts.length ≠ 2 ∨ parts.head? ≠ some "Bearer" then
      .response 401 "Invalid Authorization header format"
    else
      match tokenLookup env (parts.getD 1 "") with
      | none => .response 401 "Invalid token"
      | some t =>
        match parseWithClaims t with
        | none => .response 401 "Invalid token"
        | some c =>
          if c.issuer ≠ "online-store" then .response 401 "Invalid token"
          else .handler { ctx with userID := some c.userID }

/-- Project a JSON field out of a response body. -/
def bodyField (b : Body) (k : String) : Option Jval :=
  match b with
  | .jsonObj o => jobjField o k
  | .text _ => none

/-! ## Shared concrete fixtures -/

/-- A stored user row with non-zero timestamps, and its repository state with
the row both in the table and (well-formed) in the cache. -/
def uStored : User :=
  { id := 1, email := "old@x.com", name := "Old", password := "$2a$10$oldpw",
    createdAt := 5, updatedAt := 7 }

def sUser1 : UserRepoState :=
  { db := [(1, uStored)], nextId := 2,
    cache := [("user:1", ⟨.wellFormed uStored, 10⟩)] }

def sUserEmpty : UserRepoState := { db := [], nextId := 1, cache := [] }

/-- An update payload for user 1 whose JSON body carried no password field. -/
def uPayload : User :=
  { id := 1, email := "new@x.com", name := "New", password := "",
    createdAt := 0, updatedAt := 0 }

/-- A catalog item that passes every check of `validateProduct`. -/
def pWool : Product :=
  { id := 1, name := "Wool", description := "soft", price := 5, categoryID := 1,
    image := "img.png", type := "yarn", composition := "wool",
    countryOfOrigin := "Peru", lengthIn100g := 400, size := "",
    garmentLength := "", color := "red" }

def sProd1 : ProductRepoState :=
  { db := [(1, pWool)], nextId := 2,
    cache := [("product:1", ⟨.wellFormed pWool, 10⟩)] }

def sProdEmpty : ProductRepoState := { db := [], nextId := 1, cache := [] }

/-- The registration payload used by the credential claims. -/
def uReg : User :=
  { id := 0, email := "a@x.com", name := "A", password := "pw123456",
    createdAt := 0, updatedAt := 0 }

/-- The concrete registration request body used by the credential claims. -/
def regPatch : UserPatch := { email := some "a@x.com", password := some "pw123456" }

/-- The reject set exactly as claim C5 words it: name empty, price not > 0,
category reference not > 0, discriminator outside {yarn, garment}, or a
discriminator-dependent required field missing (composition, origin, length
for yarn; composition, size, garment-length for garment).  Spec-side
rendering, for comparison with `validateProduct` from the code. -/
def claimRejects (p : Product) : Prop :=
  p.name = "" ∨ ¬p.price > 0 ∨ ¬p.categoryID > 0 ∨
  (p.type ≠ "yarn" ∧ p.type ≠ "garment") ∨
  (p.type = "yarn" ∧ (p.composition = "" ∨ p.countryOfOrigin = "" ∨ ¬p.lengthIn100g > 0)) ∨
  (p.type = "garment" ∧ (p.composition = "" ∨ p.size = "" ∨ p.garmentLength = ""))

/-- A submitted payload outside the reject set of the claim: a fully specified
yarn item whose body merely omits the image field. -/
def patchNoImage : ProductPatch :=
  { name := some "Wool", price := some 5, categoryID := some 1,
    type := some "yarn", composition := some "wool",
    countryOfOrigin := some "Peru", lengthIn100g := some 400, color := some "red" }

/-- A valid, unexpired, correctly signed token whose role claim is not
`admin`. -/
def tUser : Token :=
  { isHMAC := true, sigValid := true, expired := false,
    claims := { userID := 9, email := "u@x.com", role := "user", issuer := "online-store" } }

def envUser : TokenEnv := [("toku", tUser)]

/-- A token valid in every checked respect except its issuer claim. -/
def tWrongIssuer : Token :=
  { isHMAC := true, sigValid := true, expired := false,
    claims := { userID := 7, email := "a@x.com", role := "admin", issuer := "evil-issuer" } }

def envWrongIssuer : TokenEnv := [("tok1", tWrongIssuer)]


/-! ## Claim C1 — update: zero rows → NotFound, cache invalidated

The claim quantifies over every resource type.  `ProductRepository.UpdateProduct`
satisfies it, but `UserRepository.UpdateUser` neither inspects the
rows-affected count (a vanished id still yields success) nor deletes the
cache entry (a get after a successful update serves the pre-update value from
the cache).  The user service and handler both map `sql.ErrNoRows` from the
update to a 404 — dead paths with this repository — and the later petelka-api
revision of the same function has both the check and the cache delete, so the
cited code is the slip and the claim the intent. -/

/-- C1: evaluated at the failing inputs.  `UserRepository.UpdateUser` reports
success on an empty table (zero rows affected, no NotFound) and on a
successful update leaves the cache entry alive, so the next `GetUser` returns
the pre-update value even though the table row changed; the product
repository behaves exactly as the claim states. -/
theorem update_user_zero_rows_and_stale_cache :
    -- user update with zero rows affected still reports success:
    (updateUser sUserEmpty uPayload).1 = .ok () ∧
    -- successful user update leaves the cache entry in place:
    (updateUser sUser1 uPayload).2.cache = sUser1.cache ∧
    -- even though the table row did change:
    rowLookup (updateUser sUser1 uPayload).2.db 1
      = some { uStored with email := "new@x.com", name := "New", password := "" } ∧
    -- so a get issued after the successful update returns the PRE-update value:
    (getUser (updateUser sUser1 uPayload).2 true 1).1 = .ok uStored ∧
    -- contrast: the product repository follows the claim — zero rows → NotFound,
    (updateProduct sProdEmpty pWool).1 = .error .noRows ∧
    -- and a successful product update deletes the cache entry:
    (updateProduct sProd1 pWool).1 = .ok () ∧
    redisGet (updateProduct sProd1 pWool).2.cache (productCacheKey 1) = none := by
  decide

/-! ## Claim C4 — delete: zero rows → NotFound, idempotent failure, cache removal

Same split: the product repository satisfies every part of the claim; the
user repository returns success for an absent id (so a repeated delete also
"succeeds" instead of failing with NotFound) and never deletes the cache
entry, so a get after a successful delete serves the deleted row from the
cache instead of failing with NotFound. -/

/-- C4: evaluated at the failing inputs.  `UserRepository.DeleteUser` reports
success when zero rows are affected, a repeated delete reports success again,
and after a successful delete the cached row is still served by `GetUser`;
`ProductRepository.DeleteProduct` matches the claim on all three points. -/
theorem delete_user_not_notfound_and_cached_get :
    -- user delete of an absent id reports success (claim says NotFound):
    (deleteUser sUserEmpty 42).1 = .ok () ∧
    -- successful user delete removes the row but not the cache entry,
    (deleteUser sUser1 1).1 = .ok () ∧
    rowLookup (deleteUser sUser1 1).2.db 1 = none ∧
    (deleteUser sUser1 1).2.cache = sUser1.cache ∧
    -- so get-after-delete returns the deleted user from the cache (not NotFound),
    (getUser (deleteUser sUser1 1).2 true 1).1 = .ok uStored ∧
    -- and the repeated delete again reports success instead of NotFound:
    (deleteUser (deleteUser sUser1 1).2 1).1 = .ok () ∧
    -- contrast: the product repository follows the claim on all three points:
    (deleteProduct sProdEmpty 42).1 = .error .noRows ∧
    (deleteProduct sProd1 1).1 = .ok () ∧
    (getProduct (deleteProduct sProd1 1).2 true 1).1 = .error .noRows ∧
    (deleteProduct (deleteProduct sProd1 1).2 1).1 = .error .noRows := by
  decide

/-! ## Claim C2 — cache-aside get

For both repositories, the attempted cache read decides the rest of the
operation exactly as the claim words it, with the key `"{resource}:{id}"` and
a 10-minute TTL on the best-effort repopulation. -/

/-- C2: the cache-aside `get` contract, for products and users.  A cache hit
that deserializes cleanly is returned as-is with no state change; otherwise a
missing row fails with NotFound; otherwise the row is returned, and the cache
gains the row under `"{resource}:{id}"` with a 10-minute TTL when the
best-effort SET succeeds, while a failed SET changes nothing and is not
propagated (the returned value is the same either way). -/
theorem get_cache_aside_spec (sp : ProductRepoState) (su : UserRepoState)
    (setOk : Bool) (id : Int) :
    ((∀ p, redisGet sp.cache ("product:" ++ toString id) = some (.wellFormed p) →
        getProduct sp setOk id = (.ok p, sp)) ∧
     ((∀ p, redisGet sp.cache ("product:" ++ toString id) ≠ some (.wellFormed p)) →
        rowLookup sp.db id = none →
        getProduct sp setOk id = (.error .noRows, sp)) ∧
     (∀ p, (∀ q, redisGet sp.cache ("product:" ++ toString id) ≠ some (.wellFormed q)) →
        rowLookup sp.db id = some p →
        (getProduct sp setOk id).1 = .ok p ∧
        (getProduct sp true id).2.cache
          = redisSet sp.cache ("product:" ++ toString id) (.wellFormed p) 10 ∧
        (getProduct sp false id).2.cache = sp.cache ∧
        (getProduct sp false id).1 = (getProduct sp true id).1)) ∧
    ((∀ u, redisGet su.cache ("user:" ++ toString id) = some (.wellFormed u) →
        getUser su setOk id = (.ok u, su)) ∧
     ((∀ u, redisGet su.cache ("user:" ++ toString id) ≠ some (.wellFormed u)) →
        rowLookup su.db id = none →
        getUser su setOk id = (.error .noRows, su)) ∧
     (∀ u, (∀ v, redisGet su.cache ("user:" ++ toString id) ≠ some (.wellFormed v)) →
        rowLookup su.db id = some u →
        (getUser su setOk id).1 = .ok u ∧
        (getUser su true id).2.cache
          = redisSet su.cache ("user:" ++ toString id) (.wellFormed u) 10 ∧
        (getUser su false id).2.cache = su.cache ∧
        (getUser su false id).1 = (getUser su true id).1)) := by
  constructor
  · refine ⟨?_, ?_, ?_⟩
    · intro p h
      simp only [getProduct, productCacheKey, h]
    · intro hmiss hrow
      rcases hr : redisGet sp.cache (productCacheKey id) with _ | cb
      · simp only [getProduct, productCacheKey, hr, hrow]
      · cases cb with
        | wellFormed v => exact absurd hr (hmiss v)
        | garbage => simp only [getProduct, productCacheKey, hr, hrow]
    · intro p hmiss hrow
      rcases hr : redisGet sp.cache (productCacheKey id) with _ | cb
      · simp [getProduct, productCacheKey, hr, hrow]
      · cases cb with
        | wellFormed v => exact absurd hr (hmiss v)
        | garbage => simp [getProduct, productCacheKey, hr, hrow]
  · refine ⟨?_, ?_, ?_⟩
    · intro u h
      simp only [getUser, userCacheKey, h]
    · intro hmiss hrow
      rcases hr : redisGet su.cache (userCacheKey id) with _ | cb
      · simp only [getUser, userCacheKey, hr, hrow]
      · cases cb with
        | wellFormed v => exact absurd hr (hmiss v)
        | garbage => simp only [getUser, userCacheKey, hr, hrow]
    · intro u hmiss hrow
      rcases hr : redisGet su.cache (userCacheKey id) with _ | cb
      · simp [getUser, userCacheKey, hr, hrow]
      · cases cb with
        | wellFormed v => exact absurd hr (hmiss v)
        | garbage => simp [getUser, userCacheKey, hr, hrow]

/-- C2 witness: a populated cache entry is returned as-is for the concrete
states `sProd1` and `sUser1`. -/
theorem get_cache_aside_spec_witness :
    getProduct sProd1 true 1 = (.ok pWool, sProd1) ∧
    getUser sUser1 true 1 = (.ok uStored, sUser1) :=
  ⟨(get_cache_aside_spec sProd1 sUser1 true 1).1.1 pWool (by decide),
   (get_cache_aside_spec sProd1 sUser1 true 1).2.1 uStored (by decide)⟩

/-! ## Claim C8 — stored credential is a hash; verifyPassword iff match

`UserService.CreateUser` hashes the password and then calls
`UserRepository.CreateUser`, which — in the cited revision — sees a non-empty
password and hashes the already-hashed value a second time.  The stored
credential is therefore `bcrypt(bcrypt(pw))`, and
`UserService.VerifyPassword`, which compares the stored credential against
the presented plaintext with a single bcrypt comparison, rejects the correct
password.  The "only if" direction and the hash-not-plaintext part of the
claim hold; the "if" direction fails on every account created through this
path (the later petelka-api repository revision does not re-hash, which is
the intended behaviour the claim describes). -/

/-- C8: evaluated at the failing input.  Creation with an empty password
fails and the stored credential differs from the plaintext — those parts of
the claim hold — but verifying the exact password supplied at creation is
rejected, because the credential was hashed twice on the way to the table. -/
theorem double_hash_breaks_verify_password :
    -- creation with an empty password fails (claim part that holds):
    (serviceCreateUser sUserEmpty { uReg with password := "" }).1
      = .error (.message "password is required") ∧
    -- the stored credential is the double hash, not the plaintext:
    rowLookup (serviceCreateUser sUserEmpty uReg).2.db 1
      = some { uReg with id := 1, password := bcryptGenerate (bcryptGenerate "pw123456") } ∧
    bcryptGenerate (bcryptGenerate "pw123456") ≠ "pw123456" ∧
    -- but the claimed iff FAILS: the password supplied at the most recent
    -- password-setting operation does not verify:
    serviceVerifyPassword (serviceCreateUser sUserEmpty uReg).2 1 "pw123456"
      = .error (.message "invalid password") := by
  decide

/-! ## bcrypt facts used by the credential claims -/

theorem bcryptGenerate_length (pw : String) :
    (bcryptGenerate pw).length = 7 + pw.length := by
  have h7 : ("$2a$10$" : String).length = 7 := by decide
  simp [bcryptGenerate, String.length_append, h7]

theorem bcryptGenerate_ne_empty (pw : String) : bcryptGenerate pw ≠ "" := by
  intro h
  have hl := congrArg String.length h
  rw [bcryptGenerate_length] at hl
  simp at hl

theorem bcryptGenerate_ne_self (pw : String) : bcryptGenerate pw ≠ pw := by
  intro h
  have hl := congrArg String.length h
  rw [bcryptGenerate_length] at hl
  omega

theorem bcryptGenerate_twice_ne (pw : String) :
    bcryptGenerate (bcryptGenerate pw) ≠ pw := by
  intro h
  have hl := congrArg String.length h
  rw [bcryptGenerate_length, bcryptGenerate_length] at hl
  omega

/-! ## Claim C3 — registration response carries no password field

The `models.User` JSON tag is `password,omitempty`, not `password,"-"`: the
field is omitted only when empty.  `UserService.CreateUser` overwrites the
password on the struct with the bcrypt hash before the insert (and the cited
repository hashes it once more), and `AuthHandler.Register` encodes that
mutated struct into the 201 body — so the response does contain a `password`
field, holding exactly the credential stored in the database.  The plaintext
itself never appears in the field. -/

/-- C3 counterexample: registering `a@x.com`/`pw123456` answers 201 with a
body whose `password` field holds the stored bcrypt hash — the claim says no
password field appears at all. -/
theorem register_body_contains_password_hash :
    (registerHandler sUserEmpty (some regPatch)).1.status = 201 ∧
    bodyField (registerHandler sUserEmpty (some regPatch)).1.body "password"
      = some (.jstr (bcryptGenerate (bcryptGenerate "pw123456"))) ∧
    (rowLookup (registerHandler sUserEmpty (some regPatch)).2.db 1).map (·.password)
      = some (bcryptGenerate (bcryptGenerate "pw123456")) := by
  decide

/-- C3 amended: for every successful registration with a non-empty password,
the 201 body contains a `password` field holding the stored hash — never the
plaintext (the stored credential differs from the supplied password). -/
theorem register_body_no_plaintext_password (s : UserRepoState)
    (patch : UserPatch) (pw : String)
    (hpw : patch.password = some pw) (hne : pw ≠ "") :
    (registerHandler s (some patch)).1.status = 201 ∧
    ∃ u : User,
      (registerHandler s (some patch)).2.db = s.db ++ [(s.nextId, u)] ∧
      bodyField (registerHandler s (some patch)).1.body "password"
        = some (.jstr u.password) ∧
      u.password ≠ pw ∧ u.password ≠ "" := by
  have hd : (decodeUser patch).password = pw := by simp [decodeUser, hpw]
  have h1 : bcryptGenerate pw ≠ "" := bcryptGenerate_ne_empty pw
  have h2 : bcryptGenerate (bcryptGenerate pw) ≠ "" :=
    bcryptGenerate_ne_empty (bcryptGenerate pw)
  refine ⟨?_, ?_⟩
  · simp [registerHandler, serviceCreateUser, createUser, hd, hne, h1]
  · refine ⟨{ decodeUser patch with password := bcryptGenerate (bcryptGenerate pw), id := s.nextId }, ?_, ?_, bcryptGenerate_twice_ne pw, h2⟩
    · simp [registerHandler, serviceCreateUser, createUser, hd, hne, h1]
    · simp [registerHandler, serviceCreateUser, createUser, hd, hne, h1,
            bodyField, encodeUser, jobjField, h2, List.find?]

/-- C3 amended, witness at the concrete registration request. -/
theorem register_body_no_plaintext_password_witness :
    (registerHandler sUserEmpty (some regPatch)).1.status = 201 ∧
    ∃ u : User,
      (registerHandler sUserEmpty (some regPatch)).2.db
        = sUserEmpty.db ++ [(sUserEmpty.nextId, u)] ∧
      bodyField (registerHandler sUserEmpty (some regPatch)).1.body "password"
        = some (.jstr u.password) ∧
      u.password ≠ "pw123456" ∧ u.password ≠ "" :=
  register_body_no_plaintext_password sUserEmpty regPatch "pw123456" rfl (by decide)

/-! ## Claim C9 — update is a full replacement

The product UPDATE lists every column of the entity, so the stored row after
a successful update is exactly the decoded payload (omitted JSON fields
arrive as zero values and overwrite).  The user UPDATE lists email, name and
password — omitting a password from the body therefore overwrites the stored
credential with the empty string — but it does NOT list the timestamp
columns, so an omitted `created_at`/`updated_at` is preserved rather than
zeroed, which refutes the quantifier of the claim (every column) at those fields. -/

theorem rowsMatching_eq_zero_iff {α : Type} (l : Table α) (k : Int) :
    rowsMatching l k = 0 ↔ rowLookup l k = none := by
  induction l with
  | nil => simp [rowsMatching, rowLookup]
  | cons a t ih =>
    simp only [rowsMatching, rowLookup] at ih ⊢
    cases hpa : (a.1 == k) <;> simp [List.filter, List.find?, hpa, ih]

theorem rowLookup_updateProduct_db (l : Table Product) (p : Product) :
    rowLookup (l.map (fun r => if r.1 == p.id then (r.1, { p with id := r.1 }) else r)) p.id
      = (rowLookup l p.id).map (fun _ => p) := by
  induction l with
  | nil => simp [rowLookup]
  | cons a t ih =>
    simp only [rowLookup, List.map_cons] at ih ⊢
    cases hpa : (a.1 == p.id) with
    | false => simp only [hpa, Bool.false_eq_true, if_false, List.find?, hpa]; exact ih
    | true =>
      have h : a.1 = p.id := by simpa using hpa
      simp [List.find?, hpa, h]

theorem rowLookup_updateUser_db (l : Table User) (u : User) :
    rowLookup (l.map (fun r => if r.1 == u.id then (r.1, applyUserUpdate r.2 u) else r)) u.id
      = (rowLookup l u.id).map (fun old => applyUserUpdate old u) := by
  induction l with
  | nil => simp [rowLookup]
  | cons a t ih =>
    simp only [rowLookup, List.map_cons] at ih ⊢
    cases hpa : (a.1 == u.id) with
    | false => simp only [hpa, Bool.false_eq_true, if_false, List.find?, hpa]; exact ih
    | true =>
      have h : a.1 = u.id := by simpa using hpa
      simp [List.find?, hpa, h]

/-- C9 counterexample: updating user 1 with an empty JSON body `{}`.  Under
the claim every omitted field would be written back as its zero value, so the
stored creation timestamp would become 0 (its decoded value); the UPDATE
statement does not list the timestamp columns, and the stored row keeps
`createdAt = 5` and `updatedAt = 7`. -/
theorem update_user_preserves_timestamps :
    (decodeUser {}).createdAt = 0 ∧ (decodeUser {}).updatedAt = 0 ∧
    (updateUserHandler sUser1 1 (some {})).1.status = 200 ∧
    rowLookup (updateUserHandler sUser1 1 (some {})).2.db 1
      = some { uStored with email := "", name := "", password := "" } ∧
    uStored.createdAt = 5 ∧ uStored.updatedAt = 7 := by
  decide

/-- C9 amended: update is a full replacement of every column listed in the
UPDATE statement.  For products that is every column of the entity: after a
successful update the stored row is exactly the submitted payload, whatever
was stored before.  For users the statement lists email, name and password,
so those three are replaced by the decoded body — in particular a body with
no password field overwrites the stored credential with the empty string —
while the timestamp columns are preserved. -/
theorem update_full_replacement :
    (∀ (sp : ProductRepoState) (p : Product) (old : Product),
       rowLookup sp.db p.id = some old →
       (updateProduct sp p).1 = .ok () ∧
       rowLookup (updateProduct sp p).2.db p.id = some p) ∧
    (∀ (su : UserRepoState) (id : Int) (patch : UserPatch) (old : User),
       rowLookup su.db id = some old → patch.password = none →
       (updateUserHandler su id (some patch)).1.status = 200 ∧
       rowLookup (updateUserHandler su id (some patch)).2.db id
         = some { old with email := patch.email.getD "", name := patch.name.getD "", password := "" }) := by
  constructor
  · intro sp p old h
    have hnz : rowsMatching sp.db p.id ≠ 0 := by
      intro h0
      rw [rowsMatching_eq_zero_iff] at h0
      rw [h0] at h
      cases h
    have hcond : (rowsMatching sp.db p.id == 0) = false := by
      simpa using hnz
    constructor
    · simp [updateProduct, hcond]
    · have hdb : (updateProduct sp p).2.db
          = sp.db.map (fun r => if r.1 == p.id then (r.1, { p with id := r.1 }) else r) := by
        simp [updateProduct, hcond]
      rw [hdb, rowLookup_updateProduct_db, h]
      rfl
  · intro su id patch old h hpw
    have hd : (decodeUser patch).password = "" := by
      simp [decodeUser, hpw]
    have hflow : updateUserHandler su id (some patch)
        = ({ status := 200,
             body := .jsonObj (encodeUser { decodeUser patch with id := id }) },
           { su with db := su.db.map (fun r =>
               if r.1 == id then (r.1, applyUserUpdate r.2 { decodeUser patch with id := id }) else r) }) := by
      simp [updateUserHandler, serviceUpdateUser, updateUser, hd]
    constructor
    · rw [hflow]
    · rw [hflow]
      have hlk := rowLookup_updateUser_db su.db { decodeUser patch with id := id }
      dsimp only at hlk ⊢
      rw [hlk, h]
      simp [applyUserUpdate, decodeUser, hpw]

/-- C9 amended, witness: a concrete successful product update stores exactly
the submitted payload. -/
theorem update_full_replacement_witness :
    (updateProduct sProd1 pWool).1 = .ok () ∧
    rowLookup (updateProduct sProd1 pWool).2.db pWool.id = some pWool :=
  update_full_replacement.1 sProd1 pWool pWool (by decide)

/-! ## Claim C5 — catalog-item validation

`validateProduct` does run before any data access and its violations carry
per-field reasons, but it rejects MORE payloads than the claim enumerates: it
also requires a non-empty image, and a non-empty color for both variants.
Moreover the cited create handler answers every service error — validation
failures included — with status 500, not 400. -/

/-- C5 counterexample: the decoded `patchNoImage` violates none of the
conditions the claim enumerates, yet validation rejects it (image required),
and the cited create handler surfaces the violation as status 500 — the
claim promised acceptance, and 400 for the payloads it does reject. -/
theorem validate_rejects_beyond_claim_and_maps_500 :
    ¬ claimRejects (decodeProduct patchNoImage) ∧
    validateProduct (decodeProduct patchNoImage) = .error "image is required" ∧
    createProductHandler sProdEmpty (some patchNoImage)
      = ({ status := 500, body := .text "Failed to create product" }, sProdEmpty) := by
  refine ⟨?_, by decide, by decide⟩
  unfold claimRejects
  decide

set_option maxHeartbeats 1600000 in
/-- C5 amended: validation accepts exactly the payloads with non-empty name,
positive price, non-empty image, positive category reference, and a
discriminator in {yarn, garment} whose variant-dependent required fields are
all present — composition, origin, positive length and color for yarn;
composition, size, garment-length and color for garment.  Each violation
carries a per-field reason, the service wraps it as `validation failed: ...`
without touching the store, and the cited create handler surfaces it to the
client as status 500 with an unchanged state. -/
theorem validate_product_characterization (p : Product) (sp : ProductRepoState)
    (patch : ProductPatch) :
    (validateProduct p = .ok () ↔
      (p.name ≠ "" ∧ p.price > 0 ∧ p.image ≠ "" ∧ p.categoryID > 0 ∧
        ((p.type = "yarn" ∧ p.composition ≠ "" ∧ p.countryOfOrigin ≠ "" ∧
            p.lengthIn100g > 0 ∧ p.color ≠ "") ∨
         (p.type = "garment" ∧ p.composition ≠ "" ∧ p.size ≠ "" ∧
            p.garmentLength ≠ "" ∧ p.color ≠ "")))) ∧
    (∀ m, validateProduct (decodeProduct patch) = .error m →
      createProductHandler sp (some patch)
        = ({ status := 500, body := .text "Failed to create product" }, sp)) ∧
    (∀ m, validateProduct p = .error m →
      serviceCreateProduct sp p = (.error (.message ("validation failed: " ++ m)), sp) ∧
      serviceUpdateProduct sp p = (.error (.message ("validation failed: " ++ m)), sp)) := by
  refine ⟨?_, ?_, ?_⟩
  · constructor
    · intro hok
      unfold validateProduct at hok
      split_ifs at hok with h1 h2 h3 h4 h5 h6 h7 h8 h9 h10 h11 h12 h13 h14 h15 <;>
        try simp at hok
      all_goals simp_all [not_le]
    · intro hr
      obtain ⟨hn, hp, hi, hc, hv⟩ := hr
      have hp2 : ¬ p.price ≤ 0 := not_le.mpr hp
      have hc2 : ¬ p.categoryID ≤ 0 := not_le.mpr hc
      rcases hv with ⟨ht, h5, h6, h7, h8⟩ | ⟨ht, h5, h6, h7, h8⟩
      · have hl : ¬ p.lengthIn100g ≤ 0 := not_le.mpr h7
        simp [validateProduct, ht, hn, hp2, hi, hc2, h5, h6, h8, hl]
      · simp [validateProduct, ht, hn, hp2, hi, hc2, h5, h6, h7, h8]
  · intro m hm
    simp [createProductHandler, serviceCreateProduct, hm]
  · intro m hm
    constructor
    · simp [serviceCreateProduct, hm]
    · simp [serviceUpdateProduct, hm]

/-- C5 amended, witness: the image-less yarn payload is rejected before any
data access and surfaced as 500, via the characterization theorem. -/
theorem validate_product_characterization_witness :
    createProductHandler sProdEmpty (some patchNoImage)
      = ({ status := 500, body := .text "Failed to create product" }, sProdEmpty) :=
  (validate_product_characterization (decodeProduct patchNoImage) sProdEmpty
    patchNoImage).2.1 "image is required" (by decide)

/-! ## Middleware pipeline facts -/

/-- Inversion: whenever `AuthMiddleware` invokes the next handler, the
context it passes carries the request id installed at pipeline entry and the
user id and role taken from the claims of a token that parsed successfully
(HMAC family, valid signature, unexpired). -/
theorem authMiddleware_handler_inv (env : TokenEnv) (rid : String)
    (req : Request) (ctx : Ctx)
    (h : authMiddleware env rid req = .handler ctx) :
    ∃ t c, tokenLookup env ((headerParts req.authHeader).getD 1 "") = some t ∧
      parseWithClaims t = some c ∧
      ctx = { requestID := some rid, userID := some c.userID, userRole := some c.role } := by
  unfold authMiddleware at h
  dsimp only at h
  by_cases hm : req.method = "OPTIONS"
  · rw [if_pos hm] at h
    simp at h
  · rw [if_neg hm] at h
    by_cases hh : req.authHeader = ""
    · rw [if_pos hh] at h
      simp at h
    · rw [if_neg hh] at h
      by_cases hb : (headerParts req.authHeader).length ≠ 2 ∨
          (headerParts req.authHeader).head? ≠ some "Bearer"
      · rw [if_pos hb] at h
        simp at h
      · rw [if_neg hb] at h
        rcases htl : tokenLookup env ((headerParts req.authHeader).getD 1 "") with _ | t
        · rw [htl] at h
          simp at h
        · rw [htl] at h
          dsimp only at h
          rcases hpc : parseWithClaims t with _ | c
          · rw [hpc] at h
            simp at h
          · rw [hpc] at h
            dsimp only at h
            injection h with h1
            exact ⟨t, c, rfl, hpc, h1.symm⟩

/-! ## Claim C6 — authentication gates the handler; admin gate after auth

For non-OPTIONS requests: a missing Authorization header or one not of the
two-word `Bearer <token>` shape makes `AuthMiddleware` answer 401 itself (an
`MwResult.response` means the route handler is never invoked); on the
admin-route chain a verified token whose role claim is not `admin` yields 403
before the handler; and the role the admin stage examines is always the role
claim of the token that authentication verified — the pipeline invokes the
handler only when that verified role is `admin`. -/
theorem auth_admin_pipeline_gating (env : TokenEnv) (rid : String)
    (req : Request) (hm : req.method ≠ "OPTIONS") :
    (req.authHeader = "" →
       authMiddleware env rid req = .response 401 "Authorization header is required") ∧
    (req.authHeader ≠ "" →
       ((headerParts req.authHeader).length ≠ 2 ∨
        (headerParts req.authHeader).head? ≠ some "Bearer") →
       authMiddleware env rid req = .response 401 "Invalid Authorization header format") ∧
    (∀ t c, req.authHeader ≠ "" →
       ¬((headerParts req.authHeader).length ≠ 2 ∨
         (headerParts req.authHeader).head? ≠ some "Bearer") →
       tokenLookup env ((headerParts req.authHeader).getD 1 "") = some t →
       parseWithClaims t = some c →
       c.role ≠ "admin" →
       adminChain env rid req = some (.response 403 "Forbidden")) ∧
    (∀ ctx, adminChain env rid req = some (.handler ctx) →
       ∃ t c, tokenLookup env ((headerParts req.authHeader).getD 1 "") = some t ∧
         parseWithClaims t = some c ∧ c.role = "admin" ∧ ctx.userRole = some c.role) := by
  refine ⟨?_, ?_, ?_, ?_⟩
  · intro hh
    simp [authMiddleware, if_neg hm, hh]
  · intro hh hb
    simp only [authMiddleware, if_neg hm, if_neg hh, if_pos hb]
  · intro t c hh hb htl hpc hrole
    have hauth : authMiddleware env rid req
        = .handler { requestID := some rid, userID := some c.userID, userRole := some c.role } := by
      simp only [authMiddleware, if_neg hm, if_neg hh, if_neg hb, htl, hpc]
    simp [adminChain, hauth, adminMiddleware, hrole]
  · intro ctx hchain
    unfold adminChain at hchain
    cases hauth : authMiddleware env rid req with
    | response st b =>
      rw [hauth] at hchain
      simp at hchain
    | handler actx =>
      rw [hauth] at hchain
      dsimp only at hchain
      obtain ⟨t, c, htl, hpc, hctx⟩ := authMiddleware_handler_inv env rid req actx hauth
      subst hctx
      by_cases hr : c.role = "admin"
      · have hadm : adminMiddleware
            { requestID := some rid, userID := some c.userID, userRole := some c.role }
            = some (.inr { requestID := some rid, userID := some c.userID, userRole := some c.role }) := by
          simp [adminMiddleware, hr]
        rw [hadm] at hchain
        dsimp only at hchain
        injection hchain with h3
        injection h3 with h4
        exact ⟨t, c, htl, hpc, hr, by rw [← h4]⟩
      · have hadm : adminMiddleware
            { requestID := some rid, userID := some c.userID, userRole := some c.role }
            = some (.inl (403, "Forbidden")) := by
          simp [adminMiddleware, hr]
        rw [hadm] at hchain
        dsimp only at hchain
        simp at hchain

/-- C6 witness: on the admin chain, a verified non-admin token is answered
403 before the route handler. -/
theorem auth_admin_pipeline_gating_witness :
    adminChain envUser "r1" { method := "DELETE", authHeader := "Bearer toku" }
      = some (.response 403 "Forbidden") :=
  (auth_admin_pipeline_gating envUser "r1"
      { method := "DELETE", authHeader := "Bearer toku" } (by decide)).2.2.1
    tUser tUser.claims (by decide) (by decide) (by decide) (by decide) (by decide)

/-! ## Claim C7 — token validation checks

The claim says every bearer-token validation verifies signature, HMAC-family
algorithm, expiry AND issuer equality.  The wired `AuthMiddleware` checks the
first three and never consults the issuer; only the `JWTMiddleware` variant
in auth.go adds the issuer check.  All failures are answered with the same
401 `Invalid token`, without distinguishing the cause. -/

/-- C7 counterexample: a correctly signed, unexpired HMAC token with a wrong
issuer is ACCEPTED by the wired `AuthMiddleware` (the handler runs), though
the claim requires issuer verification with a 401 on mismatch; the
`JWTMiddleware` variant does reject the same token. -/
theorem auth_middleware_accepts_wrong_issuer :
    tWrongIssuer.claims.issuer ≠ "online-store" ∧
    authMiddleware envWrongIssuer "r1" { method := "GET", authHeader := "Bearer tok1" }
      = .handler { requestID := some "r1", userID := some 7, userRole := some "admin" } ∧
    jwtMiddleware envWrongIssuer "r1" { method := "GET", authHeader := "Bearer tok1" }
      = .response 401 "Invalid token" := by
  decide

/-- C7 amended: for a well-formed `Bearer <token>` header on a non-OPTIONS
request, `AuthMiddleware` invokes the handler exactly when the token is
HMAC-family, correctly signed and unexpired — the issuer claim is never
consulted — and answers the same opaque 401 `Invalid token` on any of those
failures; `JWTMiddleware` additionally requires issuer equality with
`online-store`, with the same opaque 401 on every failure. -/
theorem token_validation_characterization (env : TokenEnv) (rid : String)
    (req : Request) (ts : String) (t : Token)
    (hm : req.method ≠ "OPTIONS") (hh : req.authHeader ≠ "")
    (hp : headerParts req.authHeader = ["Bearer", ts])
    (ht : tokenLookup env ts = some t) :
    ((t.isHMAC && t.sigValid && !t.expired) = true →
       authMiddleware env rid req
         = .handler { requestID := some rid, userID := some t.claims.userID,
                      userRole := some t.claims.role }) ∧
    ((t.isHMAC && t.sigValid && !t.expired) = false →
       authMiddleware env rid req = .response 401 "Invalid token") ∧
    ((t.isHMAC && t.sigValid && !t.expired) = true →
       t.claims.issuer = "online-store" →
       jwtMiddleware env rid req
         = .handler { requestID := some rid, userID := some t.claims.userID }) ∧
    ((t.isHMAC && t.sigValid && !t.expired) = true →
       t.claims.issuer ≠ "online-store" →
       jwtMiddleware env rid req = .response 401 "Invalid token") ∧
    ((t.isHMAC && t.sigValid && !t.expired) = false →
       jwtMiddleware env rid req = .response 401 "Invalid token") := by
  have hb : ¬((headerParts req.authHeader).length ≠ 2 ∨
      (headerParts req.authHeader).head? ≠ some "Bearer") := by
    rw [hp]
    simp
  have hget : (headerParts req.authHeader).getD 1 "" = ts := by
    rw [hp]
    rfl
  have htl : tokenLookup env ((headerParts req.authHeader).getD 1 "") = some t := by
    rw [hget]
    exact ht
  refine ⟨?_, ?_, ?_, ?_, ?_⟩
  · intro hv
    simp only [authMiddleware, if_neg hm, if_neg hh, if_neg hb, htl,
               parseWithClaims, hv, if_true]
  · intro hv
    simp only [authMiddleware, if_neg hm, if_neg hh, if_neg hb, htl,
               parseWithClaims, hv, Bool.false_eq_true, if_false]
  · intro hv hiss
    simp only [jwtMiddleware, if_neg hm, if_neg hh, if_neg hb, htl,
               parseWithClaims, hv, if_true, hiss]
    simp
  · intro hv hiss
    simp only [jwtMiddleware, if_neg hm, if_neg hh, if_neg hb, htl,
               parseWithClaims, hv, if_true, if_pos hiss]
  · intro hv
    simp only [jwtMiddleware, if_neg hm, if_neg hh, if_neg hb, htl,
               parseWithClaims, hv, Bool.false_eq_true, if_false]

/-- C7 amended, witness: a fully valid token is accepted by `AuthMiddleware`
with the verified claims injected into the context. -/
theorem token_validation_characterization_witness :
    authMiddleware envUser "r1" { method := "GET", authHeader := "Bearer toku" }
      = .handler { requestID := some "r1", userID := some 9, userRole := some "user" } :=
  (token_validation_characterization envUser "r1"
      { method := "GET", authHeader := "Bearer toku" } "toku" tUser
      (by decide) (by decide) (by decide) (by decide)).1 (by decide)

/-! ## Claim C10 — AdminMiddleware and the unchecked request-id assertion

`AdminMiddleware` starts with `r.Context().Value("requestID").(string)`, an
unchecked type assertion (`none` in the model is the panic).  Composed after
`AuthMiddleware` — which installs the request id before doing anything else —
the assertion can never fire; invoked on a context without the value, it
panics instead of producing an error response. -/
theorem admin_requires_auth_requestid :
    (∀ (env : TokenEnv) (rid : String) (req : Request),
       adminChain env rid req ≠ none) ∧
    (∀ ctx : Ctx, ctx.requestID = none → adminMiddleware ctx = none) := by
  constructor
  · intro env rid req hnone
    unfold adminChain at hnone
    cases hauth : authMiddleware env rid req with
    | response st b =>
      rw [hauth] at hnone
      simp at hnone
    | handler actx =>
      rw [hauth] at hnone
      dsimp only at hnone
      obtain ⟨t, c, _, _, hctx⟩ := authMiddleware_handler_inv env rid req actx hauth
      subst hctx
      by_cases hr : c.role = "admin" <;> simp [adminMiddleware, hr] at hnone
  · intro ctx h
    unfold adminMiddleware
    rw [h]

/-- C10 witness: the composed chain never panics on a concrete request, and
the bare admin stage panics on a context lacking the request id. -/
theorem admin_requires_auth_requestid_witness :
    adminChain envUser "r1" { method := "GET", authHeader := "" } ≠ none ∧
    adminMiddleware { requestID := none, userID := none, userRole := some "admin" } = none :=
  ⟨admin_requires_auth_requestid.1 envUser "r1" { method := "GET", authHeader := "" },
   admin_requires_auth_requestid.2 _ rfl⟩

end PetelkaApi
